import Mathlib

/-!
Verification of `fix_mapfile_time.py` against its specification.

The script is a linear batch pipeline: parse CLI arguments, open a mapfile,
fetch a WMS `GetCapabilities` XML document, run one XPath lookup plus a string
transform, mutate one layer, save the file.  Below, each piece of the Python
source is translated into an executable Lean definition (external services --
the filesystem, the HTTP fetch + XML parse, the mapfile library -- appear as
explicit function parameters), and the specified properties are proved or
refuted about those definitions.
-/

namespace FixMapfileTime

/-! ## Time-extent normalization (source line 135)

`strTimeExtent.replace('-', '')`: replacing every occurrence of the one-byte
substring `-` with the empty string removes exactly the `-` characters and
keeps every other character in place. -/

def removeDashes (s : String) : String :=
  ⟨s.data.filter (fun c => c != '-')⟩

/-! ## GetCapabilities request URL (source lines 118-120)

The format string is the literal `%(URL)s` followed by the fixed query text,
so the `%` substitution is exactly string concatenation of the connection
value with the fixed text; nothing is escaped or validated. -/

def wmsQuery : String := "SERVICE=WMS&VERSION=1.1.1&REQUEST=GetCapabilities"

def buildGetCapabilitiesUrl (conn : String) : String :=
  conn ++ wmsQuery

/-! ## Capabilities XML and the XPath lookup (source lines 126-133)

The capabilities response is a parsed XML tree.  The single query is

  //Layer[Name='n']/ancestor-or-self::Layer/Extent[@name='time']/text()

whose XPath value is the sequence, in document order and without duplicates,
of the text children of every `Extent` element carrying `name="time"` whose
parent is a `Layer` lying on the ancestor-or-self axis of some `Layer`
element having a `Name` child with string-value `n`.  A `Layer` is on that
axis exactly when its own subtree contains a matching `Layer`. -/

mutual

inductive XNode where
  | elem (tag : String) (attrs : List (String × String)) (children : XNodes)
  | text (s : String)

inductive XNodes where
  | nil
  | cons (head : XNode) (tail : XNodes)

end

/-- Turn a list literal into the mutual children type. -/
def xnodesOf : List XNode → XNodes
  | [] => .nil
  | c :: cs => .cons c (xnodesOf cs)

/-- Element constructor taking a plain list of children. -/
def xe (tag : String) (attrs : List (String × String)) (cs : List XNode) : XNode :=
  .elem tag attrs (xnodesOf cs)

mutual

/-- XPath string-value of a node, as character data: the concatenation of all
descendant text. -/
def stringValueChars : XNode → List Char
  | .text s => s.data
  | .elem _ _ cs => stringValueCharsList cs

def stringValueCharsList : XNodes → List Char
  | .nil => []
  | .cons c cs => stringValueChars c ++ stringValueCharsList cs

end

/-- The predicate `[Name='n']`: some child element tagged `Name` has
string-value `n`. -/
def hasNameChild (n : String) : XNodes → Bool
  | .nil => false
  | .cons c cs =>
    (match c with
     | .elem t _ _ => t == "Name" && stringValueChars c == n.data
     | .text _ => false) || hasNameChild n cs

/-- An element selected by `//Layer[Name='n']`. -/
def isMatchLayer (n : String) : XNode → Bool
  | .elem t _ cs => t == "Layer" && hasNameChild n cs
  | .text _ => false

mutual

/-- Does the descendant-or-self axis of this node contain a `Layer[Name='n']`
match?  (Equivalently: is this node on the ancestor-or-self axis of a match?) -/
def hasMatchDesc (n : String) : XNode → Bool
  | .text _ => false
  | .elem t a cs => isMatchLayer n (.elem t a cs) || hasMatchDescList n cs

def hasMatchDescList (n : String) : XNodes → Bool
  | .nil => false
  | .cons c cs => hasMatchDesc n c || hasMatchDescList n cs

end

/-- The step `Extent[@name='time']`. -/
def isTimeExtent (tag : String) (attrs : List (String × String)) : Bool :=
  tag == "Extent" && attrs.lookup "name" == some "time"

/-- Walk the children of one element in document order and collect the text
nodes selected by the XPath of source line 132.  `parentSelLayer`: the current
element is a `Layer` on the ancestor-or-self axis of a match (so its
time-`Extent` children are selected).  `inSelExtent`: the current element is
such a selected `Extent` (so its text children are in the result). -/
def collectList (n : String) (parentSelLayer : Bool) (inSelExtent : Bool) :
    XNodes → List String
  | .nil => []
  | .cons (.text s) cs =>
    (if inSelExtent then [s] else []) ++ collectList n parentSelLayer inSelExtent cs
  | .cons (.elem t a ccs) cs =>
    collectList n (t == "Layer" && hasMatchDesc n (.elem t a ccs))
      (parentSelLayer && isTimeExtent t a) ccs
      ++ collectList n parentSelLayer inSelExtent cs

/-- The full XPath result list, in document order.  The document root has no
parent, so its own text children can never be selected. -/
def xpathTimeExtent (doc : XNode) (n : String) : List String :=
  match doc with
  | .text _ => []
  | .elem t a cs => collectList n (t == "Layer" && hasMatchDesc n (.elem t a cs)) false cs

/-- Contribution of one child node to the walk: a text node selected when the
parent is a selected extent, or an element walked with recomputed flags.
`collectList` on a cons is exactly this contribution followed by the rest. -/
def collectNode (n : String) (parentSelLayer inSelExtent : Bool) : XNode → List String
  | .text s => if inSelExtent then [s] else []
  | .elem t a ccs =>
    collectList n (t == "Layer" && hasMatchDesc n (.elem t a ccs))
      (parentSelLayer && isTimeExtent t a) ccs

/-- Child with a given index, text nodes included. -/
def nthChild : XNodes → Nat → Option XNode
  | .nil, _ => none
  | .cons c _, 0 => some c
  | .cons _ cs, i + 1 => nthChild cs i

/-- Navigate a document along a list of child indices; the node at that
position, if the position exists.  A node at position `q ++ r` lies in the
subtree of the node at `q`: positions that are longer by a nonempty suffix
are exactly the proper descendants, so proper prefixes are the ancestors. -/
def getNode : XNode → List Nat → Option XNode
  | x, [] => some x
  | .text _, _ :: _ => none
  | .elem _ _ cs, i :: p =>
    match nthChild cs i with
    | none => none
    | some c => getNode c p

/-- Text children of a children list, in order. -/
def textsOf : XNodes → List String
  | .nil => []
  | .cons (.text s) cs => s :: textsOf cs
  | .cons (.elem _ _ _) cs => textsOf cs

def textsOfNode : XNode → List String
  | .text _ => []
  | .elem _ _ cs => textsOf cs

def isTimeExtentNode : XNode → Bool
  | .text _ => false
  | .elem t a _ => isTimeExtent t a

def isLayerElem : XNode → Bool
  | .text _ => false
  | .elem t _ _ => t == "Layer"

/-- Texts of the node's own `Extent[@name='time']` children, in order: the
contribution one `Layer` on the ancestor-or-self axis makes to the match
list. -/
def extentTextsList : XNodes → List String
  | .nil => []
  | .cons (.text _) cs => extentTextsList cs
  | .cons (.elem t a ccs) cs =>
    (if isTimeExtent t a then textsOf ccs else []) ++ extentTextsList cs

def ownExtentTexts : XNode → List String
  | .text _ => []
  | .elem _ _ cs => extentTextsList cs

mutual

/-- Positions (child-index lists) of every element selected by
`//Layer[Name='n']`.  A document with a unique matching layer is one where
this list is a singleton. -/
def matchPaths (n : String) : XNode → List (List Nat)
  | .text _ => []
  | .elem t a cs =>
    (if isMatchLayer n (.elem t a cs) then [([] : List Nat)] else [])
      ++ matchPathsList n 0 cs

def matchPathsList (n : String) (i : Nat) : XNodes → List (List Nat)
  | .nil => []
  | .cons c cs => (matchPaths n c).map (fun q => i :: q) ++ matchPathsList n (i + 1) cs

end

/-- A capabilities document in which the layer named `n` has no time extent of
its own, while its grandparent layer carries extent text `t1` and its parent
layer carries `t2`; mirrors the nesting that made the cascading lookup
necessary. -/
def capsCascadeDoc (n t1 t2 : String) : XNode :=
  xe "WMT_MS_Capabilities" [] [
    xe "Capability" [] [
      xe "Layer" [] [
        xe "Title" [] [.text "root layer"],
        xe "Extent" [("name", "time")] [.text t1],
        xe "Layer" [] [
          xe "Extent" [("name", "time")] [.text t2],
          xe "Layer" [] [
            xe "Name" [] [.text n]]]]]]

/-! ## Mapfile data model

mapscript is opaque (spec section 6): a mapfile is a list of named layers plus
unrelated mapfile-level settings that the tool never touches; a layer has a
name, a `connection` base URL, and a string-to-string metadata mapping.
`getLayerByName` returns the first layer with the requested name, or None;
`setMetaData` overwrites or inserts one key; `save` writes the whole document
to a path, preserving all unrelated structure. -/

structure Layer where
  name : String
  connection : String
  metadata : List (String × String)
deriving DecidableEq, Repr

structure Mapfile where
  layers : List Layer
  settings : List (String × String)
deriving DecidableEq, Repr

/-- First value bound to a metadata key. -/
def getMeta (md : List (String × String)) (k : String) : Option String :=
  match md with
  | [] => none
  | (k1, v1) :: rest => if k1 == k then some v1 else getMeta rest k

/-- `layer.setMetaData(key, value)`: overwrite the first binding of the key,
or append a new one. -/
def setMeta (md : List (String × String)) (k v : String) : List (String × String) :=
  match md with
  | [] => [(k, v)]
  | (k1, v1) :: rest => if k1 == k then (k, v) :: rest else (k1, v1) :: setMeta rest k v

/-- `mapObj.getLayerByName`: index and value of the first layer with the
requested name, or none. -/
def findLayerIdx (n : String) : List Layer → Option (Nat × Layer)
  | [] => none
  | l :: ls =>
    if l.name == n then some (0, l)
    else (findLayerIdx n ls).map (fun p => (p.1 + 1, p.2))

/-! ## updateWMStimeExtent (source lines 105-151)

The HTTP GET plus XML parse (lines 126-127) is abstracted as a total
environment `caps : String -> XNode` from request URL to parsed tree; network
and XML failures are outside the claims settled here.  Whether `import
IPython` (line 141) succeeds is a property of the installation, passed in as
`ipythonAvailable`.  Exceptions are modelled as values. -/

inductive PyExc where
  | assertionError
  | attributeError
  | indexError
  | importError
  | typeError
  | keyError
  | mapServerError
deriving DecidableEq, Repr

def MDKEY : String := "wms_timeextent"

/-- The message logged via ERR at source lines 149-150. -/
def errNoDatesMsg (conn : String) : String :=
  "Unable to locate dates in capabilities document at: " ++ conn

structure UpdateResult where
  /-- The layer object after the call (it is mutated in place before any
  exception from the `import` can fire). -/
  layer : Layer
  /-- Messages logged via ERR. -/
  errors : List String
  /-- Exception propagating out of the function, if any. -/
  exc : Option PyExc
  /-- Whether `IPython.embed()` (line 142) was reached. -/
  embedInvoked : Bool
deriving DecidableEq, Repr

def updateWMStimeExtent (caps : String → XNode) (ipythonAvailable : Bool)
    (layer : Layer) : UpdateResult :=
  -- lines 118-120: build the request URL; lines 126-128: fetch and parse
  let tree := caps (buildGetCapabilitiesUrl layer.connection)
  -- lines 130-133: the XPath lookup and the `[0]` index
  match xpathTimeExtent tree layer.name with
  | [] =>
    -- `[0]` on an empty list raises IndexError; the bare `except:` at line
    -- 144 logs via ERR (lines 149-150) and re-raises the same IndexError
    { layer := layer, errors := [errNoDatesMsg layer.connection],
      exc := some .indexError, embedInvoked := false }
  | t :: _ =>
    -- line 135: purge `-`; line 140: setMetaData
    let layerMut := { layer with metadata := setMeta layer.metadata MDKEY (removeDashes t) }
    if ipythonAvailable then
      -- lines 141-142: `import IPython; IPython.embed()` succeeds, then return
      { layer := layerMut, errors := [], exc := none, embedInvoked := true }
    else
      -- `import IPython` raises ImportError, caught by the bare `except:`,
      -- logged via ERR and re-raised; the layer was already mutated
      { layer := layerMut, errors := [errNoDatesMsg layer.connection],
        exc := some .importError, embedInvoked := false }

/-! ## process (source lines 157-193) -/

/-- Python truthiness of an optional string: None and the empty string are
falsy. -/
def pyTruthy : Option String → Bool
  | none => false
  | some s => !(s == "")

/-- Source line 181 tests `layer == types.NoneType`.  In Python 2 this
compares the lookup result against the type object `NoneType` itself: neither
`None` nor a mapscript layer object equals the type object, so the test is
False for every possible result of `getLayerByName`. -/
def eqNoneType (lookup : Option (Nat × Layer)) : Bool :=
  match lookup with
  | none => false
  | some _ => false

/-- `os.path.basename`: the part of the path after the last `/`
(computed here by reversing and taking characters up to the first `/`). -/
def takeUntilSlash : List Char → List Char
  | [] => []
  | c :: cs => if c == '/' then [] else c :: takeUntilSlash cs

def basename (p : String) : String :=
  ⟨(takeUntilSlash p.data.reverse).reverse⟩

def startsWithSlash (s : String) : Bool :=
  match s.data with
  | '/' :: _ => true
  | _ => false

def endsWithSlash (s : String) : Bool :=
  match s.data.reverse with
  | '/' :: _ => true
  | _ => false

/-- `os.path.join(a, b)` for two POSIX components: an absolute second
component wins; otherwise insert a separator unless one is already there or
the first component is empty. -/
def pathJoin (a b : String) : String :=
  if startsWithSlash b then b
  else if a == "" || endsWithSlash a then a ++ b
  else a ++ "/" ++ b

/-- Source lines 174-176: the final output file name; when `outFolder` is
truthy, `outFile` is replaced by `os.path.join(outFolder,
os.path.basename(fileName))`. -/
def processOutPath (outFile outFolder : Option String) (fileName : String) :
    Option String :=
  if pyTruthy outFolder then some (pathJoin (outFolder.getD "") (basename fileName))
  else outFile

/-- Observable outcome of one `process` call. -/
structure ProcResult where
  /-- Messages successfully logged via WARN. -/
  warnings : List String
  /-- Messages logged via ERR. -/
  errors : List String
  /-- The saved output: path and content of the written mapfile, if any. -/
  saved : Option (String × Mapfile)
  /-- Exception propagating out of `process`, if any. -/
  exc : Option PyExc
  /-- Whether `IPython.embed()` was reached. -/
  embedInvoked : Bool
deriving DecidableEq, Repr

/-- Shorthand for an outcome that only raises. -/
def crashed (e : PyExc) : ProcResult :=
  { warnings := [], errors := [], saved := none, exc := some e, embedInvoked := false }

/-- `process(fileName, layerName, outFile, outFolder)`.  Opening the mapfile
(line 178, `mapscript.mapObj`) is abstracted as the total environment
`openMap`; a fatal parse failure is outside the claims settled here. -/
def process (caps : String → XNode) (ipythonAvailable : Bool)
    (openMap : String → Mapfile) (fileName layerName : String)
    (outFile outFolder : Option String) : ProcResult :=
  -- line 171: assert (outFile or outFolder)
  if (pyTruthy outFile || pyTruthy outFolder) = false then crashed .assertionError
  -- line 172: assert (not(outFile and outFolder))
  else if (pyTruthy outFile && pyTruthy outFolder) = true then crashed .assertionError
  else
    -- lines 175-176
    let out := (processOutPath outFile outFolder fileName).getD ""
    -- line 178
    let original := openMap fileName
    -- lines 179-183
    let lookup := findLayerIdx layerName original.layers
    if eqNoneType lookup then
      -- dead branch: were it ever taken, the WARN format string
      -- `%(layerName) in ...` parses as the integer conversion `%i`
      -- applied to a str, so WARN itself raises TypeError before logging
      crashed .typeError
    else
      match lookup with
      | none =>
        -- the None layer reaches updateWMStimeExtent, where
        -- `layer.connection` (line 119) raises AttributeError: no warning
        -- is logged, nothing is saved, the exception escapes `process`
        crashed .attributeError
      | some (i, layer) =>
        -- line 188
        let u := updateWMStimeExtent caps ipythonAvailable layer
        -- the layer object is part of the map: mutation is visible on save
        let mutated := { original with layers := original.layers.set i u.layer }
        match u.exc with
        | none =>
          -- line 193: original.save(outFile)
          { warnings := [], errors := u.errors, saved := some (out, mutated),
            exc := none, embedInvoked := u.embedInvoked }
        | some e =>
          if e == .mapServerError then
            -- lines 189-191: `except MapServerError` would catch, but the
            -- WARN call interpolates `%(filepath)s` while no variable
            -- `filepath` exists, so WARN raises KeyError and the save at
            -- line 193 is never reached
            { warnings := [], errors := u.errors, saved := none,
              exc := some .keyError, embedInvoked := u.embedInvoked }
          else
            -- any other exception (IndexError, ImportError) is not caught:
            -- it escapes `process` before the save at line 193
            { warnings := [], errors := u.errors, saved := none,
              exc := some e, embedInvoked := u.embedInvoked }

/-! ## main and the command-line driver (source lines 198-282) -/

/-- Source lines 206-215: route the destination; returns
`(outfile, folder)`. -/
def mainDestArgs (isDir : String → Bool) (dest : String) :
    Option String × Option String :=
  if isDir dest then (none, some dest) else (some dest, none)

/-- Source lines 217-219: process the sources in order.  An exception
escaping `process` aborts the for loop, so later sources are not reached. -/
def runSources (caps : String → XNode) (ipythonAvailable : Bool)
    (openMap : String → Mapfile) (layerName : String)
    (outFile outFolder : Option String) : List String → List (String × ProcResult)
  | [] => []
  | src :: rest =>
    let r := process caps ipythonAvailable openMap src layerName outFile outFolder
    if r.exc.isSome then [(src, r)]
    else (src, r) :: runSources caps ipythonAvailable openMap layerName outFile outFolder rest

/-- `main(args)`, lines 198-219. -/
def main (isDir : String → Bool) (caps : String → XNode) (ipythonAvailable : Bool)
    (openMap : String → Mapfile) (layerName : String) (sources : List String)
    (dest : String) : List (String × ProcResult) :=
  runSources caps ipythonAvailable openMap layerName
    (mainDestArgs isDir dest).1 (mainDestArgs isDir dest).2 sources

/-- `os.EX_USAGE`. -/
def EX_USAGE : Nat := 64

/-- `os.EX_OK`. -/
def EX_OK : Nat := 0

inductive DriverOutcome where
  /-- `parser.print_usage()` followed by `sys.exit(os.EX_USAGE)` (lines
  261-262), before `main` runs: usage text printed, no source processed, the
  SystemExit is re-raised unchanged by the handler at line 276. -/
  | usageExit (exitCode : Nat)
  /-- `main` ran (possibly aborted by an exception reaching the top-level
  handler at line 278, which prints a traceback and exits 1; otherwise
  `sys.exit(os.EX_OK)`). -/
  | finished (results : List (String × ProcResult)) (exitCode : Nat)
deriving DecidableEq, Repr

/-- The `__main__` block, lines 256-282 (argument parsing itself and the
verbose timing output are not modelled). -/
def driver (isDir : String → Bool) (caps : String → XNode) (ipythonAvailable : Bool)
    (openMap : String → Mapfile) (layerName : String) (sources : List String)
    (dest : String) : DriverOutcome :=
  -- lines 259-262: if more than one SOURCE, DEST must be a directory
  if sources.length > 1 ∧ isDir dest = false then .usageExit EX_USAGE
  else
    let rs := main isDir caps ipythonAvailable openMap layerName sources dest
    if rs.any (fun r => r.2.exc.isSome) then .finished rs 1
    else .finished rs EX_OK

/-- Every output file written during a run. -/
def savedFiles : DriverOutcome → List (String × Mapfile)
  | .usageExit _ => []
  | .finished rs _ => rs.filterMap (fun r => r.2.saved)

/-! ## Concrete documents and mapfiles used by the witnesses -/

/-- A capabilities document whose layer hierarchy contains the layer `NDVI`
but no `Extent` element named `time` anywhere. -/
def noExtentDoc : XNode :=
  xe "WMT_MS_Capabilities" [] [
    xe "Capability" [] [
      xe "Layer" [] [
        xe "Layer" [] [
          xe "Name" [] [.text "NDVI"]]]]]

/-- A capabilities document in which layer `NDVI` carries its own time extent
`2000-02-18,2000-03-06`. -/
def ndviCapsDoc : XNode :=
  xe "WMT_MS_Capabilities" [] [
    xe "Capability" [] [
      xe "Layer" [] [
        xe "Layer" [] [
          xe "Name" [] [.text "NDVI"],
          xe "Extent" [("name", "time")] [.text "2000-02-18,2000-03-06"]]]]]

/-- A two-layer mapfile whose second layer is `NDVI`. -/
def ndviMapfile : Mapfile :=
  { layers := [
      { name := "ELEV", connection := "", metadata := [("wms_title", "elevation")] },
      { name := "NDVI", connection := "http://neowms.sci.gsfc.nasa.gov/wms/wms?",
        metadata := [("wms_title", "ndvi")] }],
    settings := [("NAME", "demo")] }

/-! ## Helper lemmas -/

/-! ### XPath walk lemmas: decomposition, soundness and completeness -/

theorem collectList_cons (n : String) (psl ise : Bool) (c : XNode) (cs : XNodes) :
    collectList n psl ise (.cons c cs)
      = collectNode n psl ise c ++ collectList n psl ise cs := by
  cases c <;> rfl

theorem xpath_eq_collectNode (n : String) (doc : XNode) :
    xpathTimeExtent doc n = collectNode n false false doc := by
  cases doc <;> rfl

theorem getNode_append (q r : List Nat) : ∀ (x : XNode),
    getNode x (q ++ r) = (getNode x q).bind (fun y => getNode y r) := by
  induction q with
  | nil => intro x; cases x <;> rfl
  | cons i q ih =>
    intro x
    cases x with
    | text s => rfl
    | elem t a cs =>
      show getNode (.elem t a cs) (i :: (q ++ r)) = _
      cases h : nthChild cs i with
      | none => simp [getNode, h]
      | some c => simp [getNode, h, ih c]

theorem hasMatchDescList_of_child (n : String) :
    ∀ (cs : XNodes) (i : Nat) (c : XNode), nthChild cs i = some c →
      hasMatchDesc n c = true → hasMatchDescList n cs = true
  | .nil, i, c, h, _ => by simp [nthChild] at h
  | .cons c0 cs, 0, c, h, hm => by
    simp [nthChild] at h
    subst h
    simp [hasMatchDescList, hm]
  | .cons c0 cs, i + 1, c, h, hm => by
    simp only [nthChild] at h
    have := hasMatchDescList_of_child n cs i c h hm
    simp [hasMatchDescList, this]

theorem hasMatchDesc_of_getNode (n : String) :
    ∀ (r : List Nat) (x N : XNode), getNode x r = some N →
      isMatchLayer n N = true → hasMatchDesc n x = true
  | [], x, N, h, hm => by
    have hx : x = N := by simpa [getNode] using h
    subst hx
    cases x with
    | text s => simp [isMatchLayer] at hm
    | elem t a cs => simp [hasMatchDesc, hm]
  | i :: r, x, N, h, hm => by
    cases x with
    | text s => simp [getNode] at h
    | elem t a cs =>
      simp only [getNode] at h
      cases hic : nthChild cs i with
      | none => rw [hic] at h; simp at h
      | some c =>
        rw [hic] at h
        have hd := hasMatchDesc_of_getNode n r c N h hm
        have := hasMatchDescList_of_child n cs i c hic hd
        simp [hasMatchDesc, this]

theorem mem_textsOf_child :
    ∀ (cs : XNodes) (i : Nat) (s : String), nthChild cs i = some (.text s) →
      s ∈ textsOf cs
  | .nil, i, s, h => by simp [nthChild] at h
  | .cons c0 cs, 0, s, h => by
    simp [nthChild] at h
    subst h
    simp [textsOf]
  | .cons c0 cs, i + 1, s, h => by
    simp only [nthChild] at h
    have := mem_textsOf_child cs i s h
    cases c0 <;> simp [textsOf, this]

theorem mem_extentTexts_child (t : String) :
    ∀ (cs : XNodes) (i : Nat) (c : XNode), nthChild cs i = some c →
      isTimeExtentNode c = true → t ∈ textsOfNode c → t ∈ extentTextsList cs
  | .nil, i, c, h, _, _ => by simp [nthChild] at h
  | .cons c0 cs, 0, c, h, hx, hm => by
    simp [nthChild] at h
    subst h
    cases c0 with
    | text s => simp [isTimeExtentNode] at hx
    | elem tg a2 ccs =>
      have hx2 : isTimeExtent tg a2 = true := by simpa [isTimeExtentNode] using hx
      have hm2 : t ∈ textsOf ccs := by simpa [textsOfNode] using hm
      simp [extentTextsList, hx2]
      exact Or.inl hm2
  | .cons c0 cs, i + 1, c, h, hx, hm => by
    simp only [nthChild] at h
    have := mem_extentTexts_child t cs i c h hx hm
    cases c0 with
    | text s => simpa [extentTextsList] using this
    | elem tg a2 ccs =>
      simp [extentTextsList]
      exact Or.inr this

mutual

theorem mem_collectNode (nq : String) :
    ∀ (x : XNode) (psl ise : Bool) (t : String), t ∈ collectNode nq psl ise x →
      (ise = true ∧ ∃ s, x = XNode.text s ∧ t = s) ∨
      (psl = true ∧ isTimeExtentNode x = true ∧ t ∈ textsOfNode x) ∨
      (∃ q A, getNode x q = some A ∧ isLayerElem A = true ∧
        hasMatchDesc nq A = true ∧ t ∈ ownExtentTexts A)
  | .text s, psl, ise, t, ht => by
    cases hi : ise with
    | false =>
      rw [hi] at ht
      simp [collectNode] at ht
    | true =>
      rw [hi] at ht
      simp only [collectNode, if_true] at ht
      left
      refine ⟨rfl, s, rfl, ?_⟩
      simpa using ht
  | .elem tg a cs, psl, ise, t, ht => by
    have hlift := mem_collectList_lift nq cs
      (tg == "Layer" && hasMatchDesc nq (.elem tg a cs)) (psl && isTimeExtent tg a) t ht
    rcases hlift with ⟨hise, hmem⟩ | ⟨hpsl, hmem⟩ | ⟨i, c, hic, q, A, hq, hA, hmd, hmem⟩
    · right; left
      rw [Bool.and_eq_true] at hise
      obtain ⟨h1, h2⟩ := hise
      exact ⟨h1, by simpa [isTimeExtentNode] using h2, by simpa [textsOfNode] using hmem⟩
    · right; right
      rw [Bool.and_eq_true] at hpsl
      obtain ⟨h1, h2⟩ := hpsl
      exact ⟨[], .elem tg a cs, rfl, by simpa [isLayerElem] using h1, h2,
        by simpa [ownExtentTexts] using hmem⟩
    · right; right
      refine ⟨i :: q, A, ?_, hA, hmd, hmem⟩
      simp [getNode, hic, hq]

theorem mem_collectList_lift (nq : String) :
    ∀ (cs : XNodes) (psl ise : Bool) (t : String), t ∈ collectList nq psl ise cs →
      (ise = true ∧ t ∈ textsOf cs) ∨
      (psl = true ∧ t ∈ extentTextsList cs) ∨
      (∃ i c, nthChild cs i = some c ∧ ∃ q A, getNode c q = some A ∧
        isLayerElem A = true ∧ hasMatchDesc nq A = true ∧ t ∈ ownExtentTexts A)
  | .nil, psl, ise, t, ht => by simp [collectList] at ht
  | .cons c cs, psl, ise, t, ht => by
    rw [collectList_cons] at ht
    rcases List.mem_append.mp ht with h | h
    · rcases mem_collectNode nq c psl ise t h with ⟨hise, s, hc, hts⟩ |
        ⟨hpsl, hx, hm⟩ | ⟨q, A, hq, hA, hmd, hm⟩
      · subst hc
        subst hts
        exact Or.inl ⟨hise, by simp [textsOf]⟩
      · right; left
        refine ⟨hpsl, ?_⟩
        cases c with
        | text s => simp [isTimeExtentNode] at hx
        | elem tg a2 ccs =>
          have hx2 : isTimeExtent tg a2 = true := by simpa [isTimeExtentNode] using hx
          have hm2 : t ∈ textsOf ccs := by simpa [textsOfNode] using hm
          simp [extentTextsList, hx2]
          exact Or.inl hm2
      · right; right
        exact ⟨0, c, rfl, q, A, hq, hA, hmd, hm⟩
    · rcases mem_collectList_lift nq cs psl ise t h with ⟨hise, hm⟩ | ⟨hpsl, hm⟩ |
        ⟨i, c2, hic, rest⟩
      · left
        refine ⟨hise, ?_⟩
        cases c <;> simp [textsOf, hm]
      · right; left
        refine ⟨hpsl, ?_⟩
        cases c with
        | text s => simpa [extentTextsList] using hm
        | elem tg a2 ccs =>
          simp [extentTextsList]
          exact Or.inr hm
      · right; right
        refine ⟨i + 1, c2, ?_, rest⟩
        simpa [nthChild] using hic

end

mutual

theorem exists_match_of_hasMatchDesc (nq : String) :
    ∀ (x : XNode), hasMatchDesc nq x = true →
      ∃ r N, getNode x r = some N ∧ isMatchLayer nq N = true
  | .text s, h => by simp [hasMatchDesc] at h
  | .elem tg a cs, h => by
    cases hm : isMatchLayer nq (.elem tg a cs) with
    | true => exact ⟨[], .elem tg a cs, rfl, hm⟩
    | false =>
      have hl : hasMatchDescList nq cs = true := by
        rw [hasMatchDesc, hm] at h
        simpa using h
      obtain ⟨i, c, r, N, hic, hN, hmN⟩ := exists_match_of_hasMatchDescList nq cs hl
      exact ⟨i :: r, N, by simp [getNode, hic, hN], hmN⟩

theorem exists_match_of_hasMatchDescList (nq : String) :
    ∀ (cs : XNodes), hasMatchDescList nq cs = true →
      ∃ i c r N, nthChild cs i = some c ∧ getNode c r = some N ∧
        isMatchLayer nq N = true
  | .nil, h => by simp [hasMatchDescList] at h
  | .cons c cs, h => by
    cases hm : hasMatchDesc nq c with
    | true =>
      obtain ⟨r, N, hN, hmN⟩ := exists_match_of_hasMatchDesc nq c hm
      exact ⟨0, c, r, N, rfl, hN, hmN⟩
    | false =>
      have hl : hasMatchDescList nq cs = true := by
        rw [hasMatchDescList, hm] at h
        simpa using h
      obtain ⟨i, c2, r, N, hic, hN, hmN⟩ := exists_match_of_hasMatchDescList nq cs hl
      exact ⟨i + 1, c2, r, N, by simpa [nthChild] using hic, hN, hmN⟩

end

theorem collectList_ne_nil_of_texts (nq : String) (psl : Bool) :
    ∀ (cs : XNodes), textsOf cs ≠ [] → collectList nq psl true cs ≠ []
  | .nil, h => by simp [textsOf] at h
  | .cons (.text s) cs, _ => by
    rw [collectList_cons]
    simp [collectNode]
  | .cons (.elem tg a ccs) cs, h => by
    rw [collectList_cons]
    have := collectList_ne_nil_of_texts nq psl cs (by simpa [textsOf] using h)
    intro heq
    exact this (List.append_eq_nil.mp heq).2

theorem collectList_ne_nil_of_extents (nq : String) (ise : Bool) :
    ∀ (cs : XNodes), extentTextsList cs ≠ [] → collectList nq true ise cs ≠ []
  | .nil, h => by simp [extentTextsList] at h
  | .cons (.text s) cs, h => by
    rw [collectList_cons]
    have := collectList_ne_nil_of_extents nq ise cs (by simpa [extentTextsList] using h)
    intro heq
    exact this (List.append_eq_nil.mp heq).2
  | .cons (.elem tg a ccs) cs, h => by
    rw [collectList_cons]
    by_cases hr : extentTextsList cs = []
    · have hhead : (if isTimeExtent tg a then textsOf ccs else []) ≠ [] := by
        intro h0
        apply h
        simp [extentTextsList, h0, hr]
      have hx : isTimeExtent tg a = true := by
        cases hx0 : isTimeExtent tg a with
        | true => rfl
        | false => rw [hx0] at hhead; simp at hhead
      have htx : textsOf ccs ≠ [] := by
        rw [hx] at hhead
        simpa using hhead
      have hinner : collectNode nq true ise (.elem tg a ccs) ≠ [] := by
        show collectList nq (tg == "Layer" && hasMatchDesc nq (.elem tg a ccs))
          (true && isTimeExtent tg a) ccs ≠ []
        rw [hx]
        exact collectList_ne_nil_of_texts nq _ ccs htx
      intro heq
      exact hinner (List.append_eq_nil.mp heq).1
    · have := collectList_ne_nil_of_extents nq ise cs hr
      intro heq
      exact this (List.append_eq_nil.mp heq).2

theorem collectList_ne_nil_of_child (nq : String) (psl ise : Bool) :
    ∀ (cs : XNodes) (i : Nat) (c : XNode), nthChild cs i = some c →
      collectNode nq psl ise c ≠ [] → collectList nq psl ise cs ≠ []
  | .nil, i, c, h, _ => by simp [nthChild] at h
  | .cons c0 cs, 0, c, h, hne => by
    simp [nthChild] at h
    subst h
    rw [collectList_cons]
    intro heq
    exact hne (List.append_eq_nil.mp heq).1
  | .cons c0 cs, i + 1, c, h, hne => by
    simp only [nthChild] at h
    have := collectList_ne_nil_of_child nq psl ise cs i c h hne
    rw [collectList_cons]
    intro heq
    exact this (List.append_eq_nil.mp heq).2

theorem collectNode_ne_nil_of_layer (nq : String) :
    ∀ (r : List Nat) (x : XNode) (psl ise : Bool) (A : XNode),
      getNode x r = some A → isLayerElem A = true → hasMatchDesc nq A = true →
      ownExtentTexts A ≠ [] → collectNode nq psl ise x ≠ []
  | [], x, psl, ise, A, h, hL, hmd, hE => by
    have hxA : x = A := by simpa [getNode] using h
    subst hxA
    cases x with
    | text s => simp [isLayerElem] at hL
    | elem tg a cs =>
      have htg : (tg == "Layer") = true := by simpa [isLayerElem] using hL
      show collectList nq (tg == "Layer" && hasMatchDesc nq (.elem tg a cs))
        (psl && isTimeExtent tg a) cs ≠ []
      rw [htg, hmd]
      exact collectList_ne_nil_of_extents nq _ cs (by simpa [ownExtentTexts] using hE)
  | i :: r, x, psl, ise, A, h, hL, hmd, hE => by
    cases x with
    | text s => simp [getNode] at h
    | elem tg a cs =>
      simp only [getNode] at h
      cases hic : nthChild cs i with
      | none => rw [hic] at h; simp at h
      | some c =>
        rw [hic] at h
        have hc := collectNode_ne_nil_of_layer nq r c
          (tg == "Layer" && hasMatchDesc nq (.elem tg a cs))
          (psl && isTimeExtent tg a) A h hL hmd hE
        exact collectList_ne_nil_of_child nq _ _ cs i c hic hc

theorem matchPathsList_mem (nq : String) (q : List Nat) :
    ∀ (cs : XNodes) (i j : Nat) (c : XNode), nthChild cs i = some c →
      q ∈ matchPaths nq c → ((j + i) :: q) ∈ matchPathsList nq j cs
  | .nil, i, j, c, h, _ => by simp [nthChild] at h
  | .cons c0 cs, 0, j, c, h, hq => by
    simp [nthChild] at h
    subst h
    simp [matchPathsList]
    exact Or.inl hq
  | .cons c0 cs, i + 1, j, c, h, hq => by
    simp only [nthChild] at h
    have := matchPathsList_mem nq q cs i (j + 1) c h hq
    have harith : j + (i + 1) = (j + 1) + i := by omega
    rw [matchPathsList, harith]
    exact List.mem_append_right _ this

theorem matchPaths_complete (nq : String) :
    ∀ (q : List Nat) (x N : XNode), getNode x q = some N →
      isMatchLayer nq N = true → q ∈ matchPaths nq x
  | [], x, N, h, hm => by
    have hx : x = N := by simpa [getNode] using h
    subst hx
    cases x with
    | text s => simp [isMatchLayer] at hm
    | elem tg a cs => simp [matchPaths, hm]
  | i :: q, x, N, h, hm => by
    cases x with
    | text s => simp [getNode] at h
    | elem tg a cs =>
      simp only [getNode] at h
      cases hic : nthChild cs i with
      | none => rw [hic] at h; simp at h
      | some c =>
        rw [hic] at h
        have hq := matchPaths_complete nq q c N h hm
        have hmem := matchPathsList_mem nq q cs i 0 c hic hq
        rw [matchPaths]
        refine List.mem_append_right _ ?_
        simpa using hmem


theorem eqNoneType_false (lookup : Option (Nat × Layer)) : eqNoneType lookup = false := by
  cases lookup <;> rfl

theorem update_exc_cases (caps : String → XNode) (ipy : Bool) (l : Layer) :
    (updateWMStimeExtent caps ipy l).exc = none ∨
    (updateWMStimeExtent caps ipy l).exc = some PyExc.indexError ∨
    (updateWMStimeExtent caps ipy l).exc = some PyExc.importError := by
  unfold updateWMStimeExtent
  cases h : xpathTimeExtent (caps (buildGetCapabilitiesUrl l.connection)) l.name with
  | nil => simp [h]
  | cons t ts => cases ipy <;> simp [h]

theorem getMeta_setMeta_self (md : List (String × String)) (k v : String) :
    getMeta (setMeta md k v) k = some v := by
  induction md with
  | nil => simp [setMeta, getMeta]
  | cons hd tl ih =>
    obtain ⟨k1, v1⟩ := hd
    by_cases h : k1 = k
    · simp [setMeta, getMeta, h]
    · simp only [setMeta, getMeta, beq_eq_false_iff_ne.mpr h, if_false]
      simpa [getMeta, beq_eq_false_iff_ne.mpr h] using ih

theorem getMeta_setMeta_ne (md : List (String × String)) (k v k2 : String)
    (h : k2 ≠ k) : getMeta (setMeta md k v) k2 = getMeta md k2 := by
  induction md with
  | nil => simp [setMeta, getMeta, beq_eq_false_iff_ne.mpr (Ne.symm h)]
  | cons hd tl ih =>
    obtain ⟨k1, v1⟩ := hd
    by_cases h1 : k1 = k
    · subst h1
      simp [setMeta, getMeta, beq_eq_false_iff_ne.mpr (Ne.symm h)]
    · simp only [setMeta, beq_eq_false_iff_ne.mpr h1, if_false]
      by_cases h2 : k1 = k2
      · simp [getMeta, h2]
      · simp only [getMeta, beq_eq_false_iff_ne.mpr h2, if_false]
        exact ih

/-! ## Claims -/

/-- Claim C4: time-extent normalization returns its input with every `-`
character removed and all other characters untouched; the result never
contains `-`; an input without `-` is returned unchanged; and the removal is
idempotent. -/
theorem removeDashes_spec (s : String) :
    (removeDashes s).data = s.data.filter (fun c => c != '-') ∧
    (∀ c ∈ (removeDashes s).data, c ≠ '-') ∧
    ('-' ∉ s.data → removeDashes s = s) ∧
    removeDashes (removeDashes s) = removeDashes s := by
  refine ⟨rfl, ?_, ?_, ?_⟩
  · intro c hc
    have := List.of_mem_filter (p := fun c => c != '-') hc
    simpa using this
  · intro h
    have hfix : s.data.filter (fun c => c != '-') = s.data := by
      apply List.filter_eq_self.mpr
      intro a ha
      simp only [bne_iff_ne, ne_eq]
      intro heq
      exact h (heq ▸ ha)
    show (⟨s.data.filter (fun c => c != '-')⟩ : String) = s
    rw [hfix]
  · show (⟨(removeDashes s).data.filter (fun c => c != '-')⟩ : String) = removeDashes s
    have hfix : (removeDashes s).data.filter (fun c => c != '-')
        = (removeDashes s).data := by
      apply List.filter_eq_self.mpr
      intro a ha
      have ha2 : a ∈ s.data.filter (fun c => c != '-') := ha
      exact List.of_mem_filter (p := fun c => c != '-') ha2
    rw [hfix]

/-- Claim C4 witness: a concrete dash-free date list is returned unchanged. -/
theorem removeDashes_spec_witness :
    removeDashes "20000218,20000306" = "20000218,20000306" :=
  (removeDashes_spec "20000218,20000306").2.2.1 (by decide)

/-- Claim C9: the GetCapabilities request URL is exactly the connection base
URL with the fixed query string appended; every character of the base URL is
kept verbatim (no escaping or validation). -/
theorem buildGetCapabilitiesUrl_spec (conn : String) :
    buildGetCapabilitiesUrl conn
      = conn ++ "SERVICE=WMS&VERSION=1.1.1&REQUEST=GetCapabilities" ∧
    (buildGetCapabilitiesUrl conn).data
      = conn.data ++ "SERVICE=WMS&VERSION=1.1.1&REQUEST=GetCapabilities".data := by
  constructor
  · rfl
  · show (conn ++ wmsQuery).data = _
    cases conn with
    | mk d => rfl

/-- Claim C5: for every capabilities document with a unique layer matching
the requested name (the match-position list is the singleton `[p]`) that has
no time-extent text of its own, while some proper-ancestor `Layer` carries a
time extent with text, the XPath result is nonempty and its first element --
the match `[0]` the Fetcher takes, first in document order -- is the extent
text of a proper-ancestor `Layer`; `updateWMStimeExtent` writes exactly that
first candidate (normalized) into the layer metadata. -/
theorem xpath_cascading_lookup (D : XNode) (n : String) (p : List Nat) (M : XNode)
    (hM : getNode D p = some M) (hmatch : isMatchLayer n M = true)
    (hun : matchPaths n D = [p])
    (hown : ownExtentTexts M = [])
    (hanc : ∃ q r A, p = q ++ r ∧ r ≠ [] ∧ getNode D q = some A ∧
      isLayerElem A = true ∧ ownExtentTexts A ≠ []) :
    ∃ t ts, xpathTimeExtent D n = t :: ts ∧
      (∃ q r A, p = q ++ r ∧ r ≠ [] ∧ getNode D q = some A ∧
        isLayerElem A = true ∧ t ∈ ownExtentTexts A) ∧
      ∀ conn md,
        (updateWMStimeExtent (fun _ => D) true ⟨n, conn, md⟩).layer.metadata
          = setMeta md MDKEY (removeDashes t) := by
  -- uniqueness of the match position, from the singleton match-path list
  have huniq : ∀ q N, getNode D q = some N → isMatchLayer n N = true → q = p := by
    intro q N h1 h2
    have hx := matchPaths_complete n q D N h1 h2
    rw [hun] at hx
    simpa using hx
  -- the result list is nonempty: the ancestor layer with extent text is selected
  obtain ⟨q0, r0, A0, hp0, hr0, hA0, hL0, hE0⟩ := hanc
  have hA0M : getNode A0 r0 = some M := by
    have := getNode_append q0 r0 D
    rw [← hp0, hM, hA0] at this
    simpa using this.symm
  have hmd0 : hasMatchDesc n A0 = true := hasMatchDesc_of_getNode n r0 A0 M hA0M hmatch
  have hne : xpathTimeExtent D n ≠ [] := by
    rw [xpath_eq_collectNode]
    exact collectNode_ne_nil_of_layer n q0 D false false A0 hA0 hL0 hmd0 hE0
  cases hxp : xpathTimeExtent D n with
  | nil => exact absurd hxp hne
  | cons t ts =>
    refine ⟨t, ts, rfl, ?_, ?_⟩
    · -- the first match is an extent text of a proper-ancestor layer of p
      have htmem : t ∈ collectNode n false false D := by
        rw [← xpath_eq_collectNode, hxp]
        exact List.mem_cons_self t ts
      rcases mem_collectNode n D false false t htmem with ⟨hfalse, _⟩ |
        ⟨hfalse, _⟩ | ⟨q, A, hq, hA, hmd, hmem⟩
      · exact absurd hfalse (by simp)
      · exact absurd hfalse (by simp)
      · obtain ⟨r, N, hrN, hmN⟩ := exists_match_of_hasMatchDesc n A hmd
        have hDN : getNode D (q ++ r) = some N := by
          rw [getNode_append, hq]
          simpa using hrN
        have hqr : q ++ r = p := huniq (q ++ r) N hDN hmN
        have hrne : r ≠ [] := by
          intro hr0'
          subst hr0'
          have hAN : A = N := by simpa [getNode] using hrN
          have hqp : q = p := by simpa using hqr
          subst hqp
          rw [hM] at hq
          have hAM : M = A := by simpa using hq
          subst hAM
          rw [hown] at hmem
          simp at hmem
        exact ⟨q, r, A, hqr.symm, hrne, hq, hA, hmem⟩
    · intro conn md
      simp only [updateWMStimeExtent]
      rw [hxp]
      simp

/-- Claim C5 witness: the three-level nesting `capsCascadeDoc`, whose queried
layer sits at position `[0, 0, 2, 1]` with the grandparent layer at
`[0, 0]` carrying the first extent. -/

theorem xpath_cascading_lookup_witness :
    ∃ t ts, xpathTimeExtent (capsCascadeDoc "NDVI" "2000-02-18" "2000-03-06") "NDVI"
        = t :: ts ∧
      (∃ q r A, ([0, 0, 2, 1] : List Nat) = q ++ r ∧ r ≠ [] ∧
        getNode (capsCascadeDoc "NDVI" "2000-02-18" "2000-03-06") q = some A ∧
        isLayerElem A = true ∧ t ∈ ownExtentTexts A) ∧
      ∀ conn md,
        (updateWMStimeExtent (fun _ => capsCascadeDoc "NDVI" "2000-02-18" "2000-03-06")
            true ⟨"NDVI", conn, md⟩).layer.metadata
          = setMeta md MDKEY (removeDashes t) :=
  xpath_cascading_lookup (capsCascadeDoc "NDVI" "2000-02-18" "2000-03-06") "NDVI"
    [0, 0, 2, 1] (xe "Layer" [] [xe "Name" [] [.text "NDVI"]])
    rfl (by decide) (by decide) (by decide)
    ⟨[0, 0], [2, 1],
      xe "Layer" [] [
        xe "Title" [] [.text "root layer"],
        xe "Extent" [("name", "time")] [.text "2000-02-18"],
        xe "Layer" [] [
          xe "Extent" [("name", "time")] [.text "2000-03-06"],
          xe "Layer" [] [xe "Name" [] [.text "NDVI"]]]],
      by decide, by decide, rfl, by decide, by decide⟩

/-- Claim C1 (code bug): when the requested layer is absent, `process` does
NOT log a warning and skip the file as the spec says.  Because source line
181 compares against the type object (`layer == types.NoneType` is False even
for None), the None layer reaches `updateWMStimeExtent` and
`layer.connection` raises AttributeError: no warning, no output file, and the
exception aborts the batch loop, so remaining sources are never processed. -/
theorem process_missingLayer_crashes (caps : String → XNode) (ipy : Bool)
    (openMap : String → Mapfile) (fileName layerName : String)
    (outFile outFolder : Option String) (others : List String)
    (h1 : (pyTruthy outFile || pyTruthy outFolder) = true)
    (h2 : (pyTruthy outFile && pyTruthy outFolder) = false)
    (h3 : findLayerIdx layerName (openMap fileName).layers = none) :
    process caps ipy openMap fileName layerName outFile outFolder
      = crashed PyExc.attributeError ∧
    runSources caps ipy openMap layerName outFile outFolder (fileName :: others)
      = [(fileName, crashed PyExc.attributeError)] := by
  have hp : process caps ipy openMap fileName layerName outFile outFolder
      = crashed PyExc.attributeError := by
    simp only [process, h1, h2, h3, eqNoneType_false]
    simp
  refine ⟨hp, ?_⟩
  simp only [runSources, hp]
  simp [crashed]

/-- Claim C1 witness: a concrete mapfile with only layer `A`, queried for
layer `B`, ahead of a second source that is never reached. -/
theorem process_missingLayer_crashes_witness :
    process (fun _ => XNode.text "") true
        (fun _ => { layers := [{ name := "A", connection := "http://example/?", metadata := [] }],
                    settings := [] })
        "a.map" "B" (some "out.map") none = crashed PyExc.attributeError ∧
    runSources (fun _ => XNode.text "") true
        (fun _ => { layers := [{ name := "A", connection := "http://example/?", metadata := [] }],
                    settings := [] })
        "B" (some "out.map") none ["a.map", "b.map"]
      = [("a.map", crashed PyExc.attributeError)] :=
  process_missingLayer_crashes _ _ _ "a.map" "B" _ _ ["b.map"]
    (by decide) (by decide) (by decide)

/-- Claim C2 (code bug): when the capabilities document has no matching time
extent, the empty XPath result makes `[0]` raise IndexError; the bare
`except:` logs an ERR naming only the connection URL and re-raises, and
`except MapServerError` in `process` does not catch IndexError.  So contrary
to the claim, no warning naming file and layer is logged and the mapfile is
NOT saved: the exception escapes `process` and kills the run. -/
theorem process_noExtent_crashes (caps : String → XNode) (ipy : Bool)
    (openMap : String → Mapfile) (fileName layerName : String)
    (outFile outFolder : Option String) (i : Nat) (L : Layer)
    (h1 : (pyTruthy outFile || pyTruthy outFolder) = true)
    (h2 : (pyTruthy outFile && pyTruthy outFolder) = false)
    (h3 : findLayerIdx layerName (openMap fileName).layers = some (i, L))
    (h4 : xpathTimeExtent (caps (buildGetCapabilitiesUrl L.connection)) L.name = []) :
    process caps ipy openMap fileName layerName outFile outFolder
      = { warnings := [], errors := [errNoDatesMsg L.connection], saved := none,
          exc := some PyExc.indexError, embedInvoked := false } := by
  simp only [process, h1, h2, h3, eqNoneType_false, updateWMStimeExtent, h4]
  simp

/-- Claim C2 witness: a concrete capabilities document containing layer
`NDVI` but no time `Extent` anywhere. -/
theorem process_noExtent_crashes_witness :
    process (fun _ => noExtentDoc) true
        (fun _ => { layers := [{ name := "NDVI", connection := "http://example/?", metadata := [] }],
                    settings := [] })
        "a.map" "NDVI" (some "out.map") none
      = { warnings := [], errors := [errNoDatesMsg "http://example/?"], saved := none,
          exc := some PyExc.indexError, embedInvoked := false } :=
  process_noExtent_crashes _ _ _ "a.map" "NDVI" _ _ 0
    { name := "NDVI", connection := "http://example/?", metadata := [] }
    (by decide) (by decide) (by decide) (by decide)

/-- Claim C3: on a successful fetch (and with IPython importable, so the
leftover debugger call on the success path returns), `process` writes exactly
one metadata entry -- `wms_timeextent` on the looked-up layer, set to the
normalized extent string -- saves the mapfile at the resolved output path,
and changes nothing else: other metadata keys, the layer name and connection,
every other layer, the layer count and the mapfile-level settings are all
preserved. -/
theorem process_success_updates_and_saves (caps : String → XNode)
    (openMap : String → Mapfile) (fileName layerName : String)
    (outFile outFolder : Option String) (i : Nat) (L : Layer) (t : String)
    (ts : List String)
    (h1 : (pyTruthy outFile || pyTruthy outFolder) = true)
    (h2 : (pyTruthy outFile && pyTruthy outFolder) = false)
    (h3 : findLayerIdx layerName (openMap fileName).layers = some (i, L))
    (h4 : xpathTimeExtent (caps (buildGetCapabilitiesUrl L.connection)) L.name = t :: ts) :
    process caps true openMap fileName layerName outFile outFolder
      = { warnings := [], errors := [],
          saved := some ((processOutPath outFile outFolder fileName).getD "",
            { openMap fileName with
              layers := (openMap fileName).layers.set i
                { L with metadata := setMeta L.metadata MDKEY (removeDashes t) } }),
          exc := none, embedInvoked := true } ∧
    getMeta (setMeta L.metadata MDKEY (removeDashes t)) MDKEY = some (removeDashes t) ∧
    (∀ k, k ≠ MDKEY →
      getMeta (setMeta L.metadata MDKEY (removeDashes t)) k = getMeta L.metadata k) ∧
    (∀ j, j ≠ i →
      ((openMap fileName).layers.set i
          { L with metadata := setMeta L.metadata MDKEY (removeDashes t) })[j]?
        = (openMap fileName).layers[j]?) ∧
    ((openMap fileName).layers.set i
        { L with metadata := setMeta L.metadata MDKEY (removeDashes t) }).length
      = (openMap fileName).layers.length ∧
    ({ openMap fileName with
        layers := (openMap fileName).layers.set i
          { L with metadata := setMeta L.metadata MDKEY (removeDashes t) } }).settings
      = (openMap fileName).settings := by
  refine ⟨?_, getMeta_setMeta_self _ _ _, fun k hk => getMeta_setMeta_ne _ _ _ _ hk,
    fun j hj => List.getElem?_set_ne (Ne.symm hj), List.length_set _ _ _, rfl⟩
  simp only [process, h1, h2, h3, eqNoneType_false, updateWMStimeExtent, h4]
  simp

/-- Claim C3 witness: the end-to-end example of the spec.  Layer `NDVI` with
extent text `2000-02-18,2000-03-06` yields an output identical to the source
mapfile except that `NDVI` gains `wms_timeextent = "20000218,20000306"`. -/
theorem process_success_updates_and_saves_witness :
    process (fun _ => ndviCapsDoc) true (fun _ => ndviMapfile) "a.map" "NDVI"
        (some "out.map") none
      = { warnings := [], errors := [],
          saved := some ("out.map",
            { layers := [
                { name := "ELEV", connection := "", metadata := [("wms_title", "elevation")] },
                { name := "NDVI", connection := "http://neowms.sci.gsfc.nasa.gov/wms/wms?",
                  metadata := [("wms_title", "ndvi"), ("wms_timeextent", "20000218,20000306")] }],
              settings := [("NAME", "demo")] }),
          exc := none, embedInvoked := true } := by
  have h := process_success_updates_and_saves (fun _ => ndviCapsDoc) (fun _ => ndviMapfile)
    "a.map" "NDVI" (some "out.map") none 1
    { name := "NDVI", connection := "http://neowms.sci.gsfc.nasa.gov/wms/wms?",
      metadata := [("wms_title", "ndvi")] }
    "2000-02-18,2000-03-06" [] (by decide) (by decide) (by decide) (by decide)
  exact h.1.trans (by decide)

/-- Claim C6 counterexample: a valid single-source invocation whose DEST is
an existing directory resolves to `DEST/basename(source)`, not to the literal
DEST, refuting the claim as stated. -/
theorem singleSource_dirDest_counterexample :
    processOutPath (mainDestArgs (fun s => s == "outdir") "outdir").1
        (mainDestArgs (fun s => s == "outdir") "outdir").2 "a.map"
      = some "outdir/a.map" ∧ ("outdir/a.map" : String) ≠ "outdir" := by
  constructor
  · decide
  · decide

/-- Claim C6 as amended: for every valid invocation with exactly one source
file whose DEST is not an existing directory, the resolved output path equals
the literal DEST argument. -/
theorem singleSource_fileDest_outPath (isDir : String → Bool) (dest src : String)
    (h : isDir dest = false) :
    processOutPath (mainDestArgs isDir dest).1 (mainDestArgs isDir dest).2 src
      = some dest := by
  simp [mainDestArgs, h, processOutPath, pyTruthy]

/-- Claim C6 witness for the amended statement. -/
theorem singleSource_fileDest_outPath_witness :
    processOutPath (mainDestArgs (fun _ => false) "out.map").1
        (mainDestArgs (fun _ => false) "out.map").2 "a.map" = some "out.map" :=
  singleSource_fileDest_outPath (fun _ => false) "out.map" "a.map" rfl

/-- Claim C7: with more than one source and a DEST that is not an existing
directory, the run prints usage and exits with `os.EX_USAGE` (64) before
`main` runs: no source is processed and no output file is written (the
SystemExit is re-raised unchanged, so no other exception reaches the
caller). -/
theorem driver_multiSource_usageExit (isDir : String → Bool) (caps : String → XNode)
    (ipy : Bool) (openMap : String → Mapfile) (layerName : String)
    (sources : List String) (dest : String)
    (h1 : 1 < sources.length) (h2 : isDir dest = false) :
    driver isDir caps ipy openMap layerName sources dest = .usageExit EX_USAGE ∧
    savedFiles (driver isDir caps ipy openMap layerName sources dest) = [] := by
  have hd : driver isDir caps ipy openMap layerName sources dest
      = .usageExit EX_USAGE := by
    simp [driver, h1, h2]
  exact ⟨hd, by rw [hd]; rfl⟩

/-- Claim C7 witness: two sources and a non-directory DEST. -/
theorem driver_multiSource_usageExit_witness :
    driver (fun _ => false) (fun _ => XNode.text "") true
        (fun _ => { layers := [], settings := [] })
        "L" ["a.map", "b.map"] "nodir" = .usageExit EX_USAGE ∧
    savedFiles (driver (fun _ => false) (fun _ => XNode.text "") true
        (fun _ => { layers := [], settings := [] })
        "L" ["a.map", "b.map"] "nodir") = [] :=
  driver_multiSource_usageExit _ _ _ _ _ _ _ (by decide) rfl

/-- Claim C8: when DEST is an existing directory (hence nonempty:
`os.path.isdir` is False on the empty string), each source resolves to
`os.path.join(DEST, os.path.basename(source))`. -/
theorem dirDest_outPath_join (isDir : String → Bool) (dest src : String)
    (h1 : isDir dest = true) (h2 : dest ≠ "") :
    processOutPath (mainDestArgs isDir dest).1 (mainDestArgs isDir dest).2 src
      = some (pathJoin dest (basename src)) := by
  simp [mainDestArgs, h1, processOutPath, pyTruthy, beq_eq_false_iff_ne.mpr h2]

/-- Claim C8 witness: an absolute source path resolving into `outdir`. -/
theorem dirDest_outPath_join_witness :
    processOutPath (mainDestArgs (fun s => s == "outdir") "outdir").1
        (mainDestArgs (fun s => s == "outdir") "outdir").2 "/tmp/a.map"
      = some (pathJoin "outdir" (basename "/tmp/a.map")) :=
  dirDest_outPath_join (fun s => s == "outdir") "outdir" "/tmp/a.map"
    (by decide) (by decide)

/-- Claim C10 counterexample: `outFile` given as the empty string with no
`outFolder` is a call where exactly one of the two is provided, yet the
first assertion fails (Python truthiness: the empty string is falsy), so the
claimed unreachability of the assertion branches under "exactly one given" is
false as stated. -/
theorem asserts_emptyString_counterexample :
    process (fun _ => XNode.text "") true (fun _ => { layers := [], settings := [] })
        "f.map" "L" (some "") none
      = crashed PyExc.assertionError := by
  decide

/-- Claim C10 as amended: `process` requires exactly one of `outFile` and
`outFolder` to be truthy (present and non-empty).  If neither is truthy the
first assertion fails, if both are truthy the second fails -- in either case
before the filesystem is touched -- and when exactly one is truthy no
assertion fires. -/
theorem process_asserts_truthy (caps : String → XNode) (ipy : Bool)
    (openMap : String → Mapfile) (fileName layerName : String)
    (outFile outFolder : Option String) :
    ((pyTruthy outFile || pyTruthy outFolder) = false →
      process caps ipy openMap fileName layerName outFile outFolder
        = crashed PyExc.assertionError) ∧
    ((pyTruthy outFile && pyTruthy outFolder) = true →
      process caps ipy openMap fileName layerName outFile outFolder
        = crashed PyExc.assertionError) ∧
    ((pyTruthy outFile || pyTruthy outFolder) = true →
      (pyTruthy outFile && pyTruthy outFolder) = false →
      (process caps ipy openMap fileName layerName outFile outFolder).exc
        ≠ some PyExc.assertionError) := by
  refine ⟨fun h => by simp [process, h], fun h => ?_, fun h1 h2 => ?_⟩
  · by_cases h0 : (pyTruthy outFile || pyTruthy outFolder) = false
    · simp [process, h0]
    · simp [process, h0, h]
  · simp only [process, h1, h2, eqNoneType_false]
    cases hl : findLayerIdx layerName (openMap fileName).layers with
    | none => simp [crashed]
    | some p =>
      obtain ⟨i, L⟩ := p
      rcases update_exc_cases caps ipy L with h | h | h <;> simp [h, crashed]

/-- Claim C10 witness for the amended statement: with exactly one truthy
output argument no assertion fires. -/
theorem process_asserts_truthy_witness :
    (process (fun _ => XNode.text "") true (fun _ => { layers := [], settings := [] })
        "f.map" "L" (some "o.map") none).exc ≠ some PyExc.assertionError :=
  (process_asserts_truthy (fun _ => XNode.text "") true
      (fun _ => { layers := [], settings := [] }) "f.map" "L" (some "o.map") none).2.2
    (by decide) (by decide)

end FixMapfileTime
